import Mathlib

/-!
Verification of the asynchronous task workflow of the bosonnlp client
library (`bosonnlp/client.py`): content normalization, chunked upload,
status mapping, the exponential-backoff polling loop, and the one-shot
cluster/comments wrappers.  Python values that flow through the
normalizer are embedded as `PyObj`; the nondeterministic UUID generator
`uuid.uuid4()` is embedded as an abstract supply `gen : ℕ → String`
consumed left to right (the `ctr` argument is the index of the next
draw).  Rational numbers stand in for Python floats in the timing code.
-/

/-- A Python value as it appears in the cluster/comments content
pipeline: a text string, an integer, a tuple, or a (string-keyed)
dict.  Dicts keep their insertion order, as CPython dicts do. -/
inductive PyObj where
  | str (s : String)
  | int (k : Int)
  | tup (elems : List PyObj)
  | dict (pairs : List (String × PyObj))

/-- Is this value a Python `str`? (`isinstance(x, string_types)`). -/
def PyObj.isStr : PyObj → Bool
  | .str _ => true
  | _ => false

/-- Is this value a Python `tuple`? (`isinstance(x, tuple)`). -/
def PyObj.isTup : PyObj → Bool
  | .tup _ => true
  | _ => false

/-- Python `repr` of a value, specialized to the `PyObj` universe
(string escaping inside `repr` is abstracted to plain quoting). -/
def pyRepr : PyObj → String
  | .str s => "\x27" ++ s ++ "\x27"
  | .int k => toString k
  | .tup [] => "()"
  | .tup [e] => "(" ++ pyRepr e ++ ",)"
  | .tup (e :: e2 :: es) =>
      let tail := pyRepr (.tup (e2 :: es))
      "(" ++ pyRepr e ++ ", " ++ (tail.drop 1)
  | .dict [] => "\x7b\x7d"
  | .dict [(k, v)] => "\x7b\x27" ++ k ++ "\x27: " ++ pyRepr v ++ "\x7d"
  | .dict ((k, v) :: p2 :: ps) =>
      let tail := pyRepr (.dict (p2 :: ps))
      "\x7b\x27" ++ k ++ "\x27: " ++ pyRepr v ++ ", " ++ (tail.drop 1)

/-- Python `str()` of a value: the identity on strings, `repr`
otherwise. -/
def pyStr : PyObj → String
  | .str s => s
  | v => pyRepr v

/-- Lookup of a string key in a Python dict (first match, as in the
embedded dicts, whose keys are unique). -/
def lookupKey (k : String) : List (String × PyObj) → Option PyObj
  | [] => none
  | (key, v) :: rest => if key = k then some v else lookupKey k rest

/-- `obj[k]` for a dict `obj`; `none` models a `KeyError` / `TypeError`. -/
def dictGet (v : PyObj) (k : String) : Option PyObj :=
  match v with
  | .dict ps => lookupKey k ps
  | _ => none

/-- The record `{"_id": i, "text": t}` built by `_prepare_contents`. -/
def mkRecord (i t : PyObj) : PyObj :=
  .dict [("_id", i), ("text", t)]

/-- Is this value a normalized `{"_id": ..., "text": ...}` record? -/
def isRecord : PyObj → Bool
  | .dict [(k1, _), (k2, _)] => k1 = "_id" && k2 = "text"
  | _ => false

/-- Python iterable unpacking `_id, s = x` into exactly two targets:
succeeds on 2-tuples, 2-character strings (yielding the characters) and
2-entry dicts (yielding the keys); `none` models the
`ValueError`/`TypeError` raised otherwise. -/
def unpack2 : PyObj → Option (PyObj × PyObj)
  | .tup [a, b] => some (a, b)
  | .tup _ => none
  | .str s =>
      match s.data with
      | [a, b] => some (.str (String.mk [a]), .str (String.mk [b]))
      | _ => none
  | .dict [(k1, _), (k2, _)] => some (.str k1, .str k2)
  | .dict _ => none
  | .int _ => none

/-- Unpack every element of the list (the tuple branch of
`_prepare_contents`); the first failure aborts the whole call. -/
def unpackAll : List PyObj → Option (List (PyObj × PyObj))
  | [] => some []
  | x :: xs =>
      match unpack2 x with
      | none => none
      | some p => (unpackAll xs).map (p :: ·)

/-- `[{"_id": _generate_id(), "text": s} for s in contents]`: wrap each
element as the text of a record whose id is the next UUID draw. -/
def wrapFrom (gen : ℕ → String) (ctr : ℕ) : List PyObj → List PyObj
  | [] => []
  | s :: rest => mkRecord (.str (gen ctr)) s :: wrapFrom gen (ctr + 1) rest

/-- `_ClusterTask._prepare_contents`: dispatches on the FIRST element
only.  Returns the normalized list together with the number of UUID
draws consumed; `none` models an exception escaping the call. -/
def prepare (gen : ℕ → String) (ctr : ℕ) (contents : List PyObj) :
    Option (List PyObj × ℕ) :=
  match contents with
  | [] => some ([], 0)
  | x :: _ =>
    match x with
    | .str _ => some (wrapFrom gen ctr contents, contents.length)
    | .tup _ =>
        (unpackAll contents).map fun ps =>
          (ps.map fun p => mkRecord p.1 p.2, 0)
    | _ => some (contents, 0)

/-- The chunk slices `contents[i:i+100]` for `i in range(0, len, 100)`
from `BosonNLP._cluster_push` / `_comments_push`. -/
def chunks100 (l : List PyObj) : List (List PyObj) :=
  (List.range ((l.length + 99) / 100)).map fun j => (l.drop (100 * j)).take 100

/-- `BosonNLP._cluster_push` under an all-successful transport: the
list of chunk upload calls issued (in submission order) and the value
returned (`False` when nothing is submitted, else `r.ok` of the last
chunk response, i.e. `true` here); the draw count of its internal
re-normalization is also returned.  `none` models an exception from
`_prepare_contents`. -/
def cluster_push (gen : ℕ → String) (ctr : ℕ) (contents : List PyObj) :
    Option (List (List PyObj) × Bool × ℕ) :=
  (prepare gen ctr contents).map fun cd =>
    if cd.1.isEmpty then ([], false, cd.2)
    else (chunks100 cd.1, true, cd.2)

/-- Client-side task state: the index of the next UUID draw and the
local record mirror `self._contents`. -/
structure TaskState where
  ctr : ℕ
  mirror : List PyObj

/-- `_ClusterTask.push`: normalize, hand to `_cluster_push` (which
normalizes again), and extend the local mirror when the push reports
success.  Returns the new state, the chunk calls issued and the push
return value; `none` models an exception. -/
def taskPush (gen : ℕ → String) (st : TaskState) (contents : List PyObj) :
    Option (TaskState × List (List PyObj) × Bool) :=
  match prepare gen st.ctr contents with
  | none => none
  | some (c, d) =>
      match cluster_push gen (st.ctr + d) c with
      | none => none
      | some (calls, ok, d2) =>
          some (⟨st.ctr + d + d2, if ok then st.mirror ++ c else st.mirror⟩,
                calls, ok)

/-- Repeated `push` calls against one task. -/
def pushAll (gen : ℕ → String) (st : TaskState) :
    List (List PyObj) → Option TaskState
  | [] => some st
  | c :: cs =>
      match taskPush gen st c with
      | none => none
      | some (st', _, _) => pushAll gen st' cs

/-- The normalization in the one-shot wrappers `BosonNLP.cluster` /
`BosonNLP.comments` (lines 539-540 / 668-669): bare strings are wrapped
with their ENUMERATION INDEX as id, not with a UUID. -/
def clusterWrapperNormalize (contents : List PyObj) : List PyObj :=
  match contents with
  | [] => []
  | x :: _ =>
      if x.isStr then
        (contents.enum).map fun p => mkRecord (.int p.1) p.2
      else contents

/-- An HTTP response as `_api_request` sees it: status code, protocol
status phrase (`r.reason`) and parsed JSON body (`none` models a body
on which `r.json()` raises). -/
structure HttpResponse where
  status_code : ℕ
  reason : String
  body : Option PyObj

/-- The `HTTPError` raised by `_api_request`: its message and the
status code of the response it carries. -/
structure HttpErr where
  msg : String
  code : ℕ
deriving DecidableEq

/-- The `message` field extracted from the JSON error body
(`r.json()['message']`); `none` when that extraction raises. -/
def jsonMessage (r : HttpResponse) : Option PyObj :=
  r.body.bind (fun b => dictGet b "message")

/-- The error-classification tail of `BosonNLP._api_request`: a status
code in [400, 600) raises `HTTPError`, preferring the JSON body's
`message` field over `r.reason`; other responses are returned as-is. -/
def api_request (r : HttpResponse) : Except HttpErr HttpResponse :=
  if 400 ≤ r.status_code ∧ r.status_code < 600 then
    let reason :=
      match jsonMessage r with
      | some m => pyStr m
      | none => r.reason
    .error ⟨"HTTPError: " ++ toString r.status_code ++ " " ++ reason,
            r.status_code⟩
  else .ok r

/-- `str.lower()` on the code points of a string (ASCII case folding,
as Lean's `Char.toLower`; the full-Unicode folding of CPython differs
only outside the alphabet used by the status protocol). -/
def strLower (s : String) : String :=
  String.mk (s.data.map Char.toLower)

/-- The possible outcomes of `BosonNLP._cluster_status` /
`_comments_status`. -/
inductive StatusOutcome where
  | transport (e : HttpErr)
  | notFound (msg : String)
  | taskErr (msg : String)
  | keyErr
  | ok (status : String)
deriving DecidableEq

/-- `BosonNLP._cluster_status`: runs the request through
`_api_request` (transport errors propagate unchanged), extracts and
case-folds `str(r.json()['status'])`, and maps `"not found"` to
`TaskNotFoundError`, `"error"` to `TaskError`, anything else to a
normal return.  `keyErr` models the `KeyError` of a body without a
`status` field. -/
def cluster_status (task_id : String) (r : HttpResponse) : StatusOutcome :=
  match api_request r with
  | .error e => .transport e
  | .ok r2 =>
    match r2.body.bind (fun b => dictGet b "status") with
    | none => .keyErr
    | some v =>
      let status := strLower (pyStr v)
      if status = "not found" then
        .notFound ("cluster " ++ task_id ++ " not found")
      else if status = "error" then
        .taskErr ("cluster " ++ task_id ++ " error")
      else .ok status

/-- The loop state of `_ClusterTask.wait_until_complete`: accumulated
elapsed time, current sleep interval, the iteration counter `i`, the
log of intervals slept so far, and the outcome (`none` while looping,
`some true` after returning on `done`, `some false` after raising
`TimeoutError`). -/
structure WaitState where
  elapsed : ℚ
  stime : ℚ
  i : ℕ
  log : List ℚ
  result : Option Bool

/-- The Python truthiness test `timeout and elapsed >= timeout`. -/
def timeoutHit (tmo : Option ℚ) (elapsed : ℚ) : Bool :=
  match tmo with
  | none => false
  | some t => decide (t ≠ 0) && decide (t ≤ elapsed)

/-- One iteration of the `while True` loop of `wait_until_complete`:
sleep (logging the interval), poll `status()` (the `st` argument is the
string it returned), return on `"done"`, otherwise accumulate elapsed
time, raise on the timeout test, and double the interval every third
iteration while it is below 64.  Frozen once a result is set. -/
def waitStep (st : String) (tmo : Option ℚ) (s : WaitState) : WaitState :=
  match s.result with
  | some _ => s
  | none =>
    let log := s.log ++ [s.stime]
    if st = "done" then
      { s with log := log, result := some true }
    else
      let elapsed := s.elapsed + s.stime
      if timeoutHit tmo elapsed then
        { s with log := log, elapsed := elapsed, result := some false }
      else
        let i := s.i + 1
        let stime :=
          if i % 3 = 0 ∧ s.stime < 64 then s.stime + s.stime else s.stime
        { elapsed := elapsed, stime := stime, i := i, log := log,
          result := none }

/-- The state of `wait_until_complete` before the first iteration:
`seconds_to_sleep = 1`, clamped to `min(1, timeout)` when a timeout is
supplied. -/
def waitInit (tmo : Option ℚ) : WaitState :=
  { elapsed := 0,
    stime := match tmo with | none => 1 | some t => min 1 t,
    i := 0, log := [], result := none }

/-- The loop state after `n` iterations of `wait_until_complete`,
where `status k` is the string returned by the `k`-th `status()`
poll. -/
def waitRun (status : ℕ → String) (tmo : Option ℚ) : ℕ → WaitState
  | 0 => waitInit tmo
  | n + 1 => waitStep (status n) tmo (waitRun status tmo n)

/-- The interval slept at the `k`-th polling iteration (0-based) in the
unclamped regime: 1,1,1,2,2,2,4,4,4,... capped at 64. -/
def backoffFormula (k : ℕ) : ℚ :=
  min ((2 : ℚ) ^ (k / 3)) 64

/-- The five remote operations the one-shot wrappers drive. -/
inductive OpName where
  | create | analysis | wait | result | clear
deriving DecidableEq

/-- An oracle for one run of the one-shot wrapper: whether each
lifecycle step raises (and with what), and the result payload.
`createErr` covers `create_cluster_task` including its constructor-time
initial push. -/
structure TaskOps (ε : Type) where
  createErr : Option ε
  analysisErr : Option ε
  waitErr : Option ε
  resultOut : Except ε (List PyObj)
  clearErr : Option ε

/-- The outcome of the `try` body (analysis; wait; result) given the
oracle, together with the operations it invoked. -/
def bodyRun {ε : Type} (ops : TaskOps ε) :
    List OpName × Except ε (List PyObj) :=
  match ops.analysisErr with
  | some e => ([.analysis], .error e)
  | none =>
    match ops.waitErr with
    | some e => ([.analysis, .wait], .error e)
    | none =>
      match ops.resultOut with
      | .error e => ([.analysis, .wait, .result], .error e)
      | .ok res => ([.analysis, .wait, .result], .ok res)

/-- `BosonNLP.cluster` / `BosonNLP.comments` (the try/finally
lifecycle): empty contents short-circuit to `[]` before anything runs;
otherwise `cluster = None`, then `create` (if it raises, the variable
is never bound, so the `finally` block skips `clear`); when `create`
succeeded the `finally` block always runs `clear`, and an exception
from `clear` propagates in place of the body's outcome (Python
`finally` semantics).  Returns the invoked operations in order and the
call's outcome. -/
def clusterRun {ε : Type} (contents : List PyObj) (ops : TaskOps ε) :
    List OpName × Except ε (List PyObj) :=
  if contents.isEmpty then ([], .ok [])
  else
    match ops.createErr with
    | some e => ([.create], .error e)
    | none =>
      let body := bodyRun ops
      let calls := .create :: body.1 ++ [.clear]
      match ops.clearErr with
      | some ce => (calls, .error ce)
      | none => (calls, body.2)

/-- A concrete UUID supply for witnesses: pairwise distinct draws. -/
def genW : ℕ → String := fun n => "uuid-" ++ toString n

/-- The records the witness push of two bare strings produces. -/
def demoRecords : List PyObj :=
  [mkRecord (.str "uuid-0") (.str "a"), mkRecord (.str "uuid-1") (.str "b")]

/-- Witness oracle: facade construction itself raises (e.g. the
constructor-time initial push fails after some chunks went through). -/
def opsA : TaskOps ℕ := ⟨some 7, none, none, .ok [], none⟩

/-- Witness oracle: the body fails with error 1 and `clear` also
raises, with error 2. -/
def opsB : TaskOps ℕ := ⟨none, some 1, none, .ok [], some 2⟩

/-- Witness oracle: `wait_until_complete` raises (e.g. a timeout) and
`clear` succeeds. -/
def opsC : TaskOps ℕ := ⟨none, none, some 3, .ok [], none⟩

/-- The UUID draws number `ctr, ctr+1, ..., ctr+n-1`, as id values:
what the string branch of `_prepare_contents` assigns to `n`
consecutive bare strings. -/
def uuidIds (gen : ℕ → String) (ctr : ℕ) : ℕ → List (Option PyObj)
  | 0 => []
  | n + 1 => some (.str (gen ctr)) :: uuidIds gen (ctr + 1) n

section ChunkLemmas

/-- Joining the `range`-indexed slices of step 100 recovers the list. -/
theorem joinSlicesAux : ∀ (n : ℕ) (l : List PyObj), l.length ≤ 100 * n →
    ((List.range n).map fun j => (l.drop (100 * j)).take 100).flatten = l := by
  intro n
  induction n with
  | zero =>
      intro l h
      simp only [Nat.mul_zero, Nat.le_zero, List.length_eq_zero] at h
      simp [h]
  | succ n ih =>
      intro l h
      rw [List.range_succ_eq_map]
      simp only [List.map_cons, List.map_map, List.flatten_cons]
      have hfun : ∀ j : ℕ,
          ((fun j => (l.drop (100 * j)).take 100) ∘ Nat.succ) j =
            (fun j => (((l.drop 100).drop (100 * j)).take 100)) j := by
        intro j
        simp only [Function.comp_apply, List.drop_drop]
        congr 2
        omega
      rw [List.map_congr_left fun j _ => hfun j]
      rw [ih (l.drop 100) (by simp only [List.length_drop]; omega)]
      simp only [Nat.mul_zero, List.drop_zero]
      exact List.take_append_drop 100 l

/-- `_cluster_push` issues `ceil(N/100)` chunk calls. -/
theorem chunks100_length (l : List PyObj) :
    (chunks100 l).length = (l.length + 99) / 100 := by
  simp [chunks100]

/-- Every chunk holds at most 100 records. -/
theorem chunks100_size {l : List PyObj} {c : List PyObj}
    (h : c ∈ chunks100 l) : c.length ≤ 100 := by
  simp only [chunks100, List.mem_map, List.mem_range] at h
  obtain ⟨j, -, rfl⟩ := h
  simp

/-- The chunks concatenate back to the pushed sequence, in order. -/
theorem chunks100_flatten (l : List PyObj) : (chunks100 l).flatten = l :=
  joinSlicesAux ((l.length + 99) / 100) l (by omega)

end ChunkLemmas

section PrepareLemmas

/-- A true `isRecord` test pins down the dict shape of the value. -/
theorem isRecord_dict {x : PyObj} (h : isRecord x = true) :
    ∃ ps, x = PyObj.dict ps := by
  cases x with
  | dict ps => exact ⟨ps, rfl⟩
  | str s => simp [isRecord] at h
  | int k => simp [isRecord] at h
  | tup es => simp [isRecord] at h

/-- Unfolding a successful unpack of a nonempty list. -/
theorem unpackAll_cons {x : PyObj} {xs : List PyObj} {ps : List (PyObj × PyObj)}
    (h : unpackAll (x :: xs) = some ps) :
    ∃ q qs, ps = q :: qs ∧ unpack2 x = some q ∧ unpackAll xs = some qs := by
  simp only [unpackAll] at h
  cases hx : unpack2 x with
  | none => rw [hx] at h; exact absurd h (by simp)
  | some q =>
      rw [hx] at h
      cases hxs : unpackAll xs with
      | none => rw [hxs] at h; exact absurd h (by simp)
      | some qs =>
          rw [hxs] at h
          simp only [Option.map_some', Option.some_inj] at h
          exact ⟨q, qs, h.symm, rfl, rfl⟩

/-- The output of a successful normalization is stable: running
`_prepare_contents` on it again (as `_cluster_push` does) returns it
unchanged and draws no UUIDs. -/
theorem prepare_out_stable {gen : ℕ → String} {ctr : ℕ} {contents p : List PyObj}
    {d : ℕ} (h : prepare gen ctr contents = some (p, d)) :
    ∀ (gen2 : ℕ → String) (ctr2 : ℕ), prepare gen2 ctr2 p = some (p, 0) := by
  intro gen2 ctr2
  match contents with
  | [] =>
      simp only [prepare, Option.some_inj, Prod.mk.injEq] at h
      obtain ⟨rfl, rfl⟩ := h
      rfl
  | .str s :: rest =>
      simp only [prepare, Option.some_inj, Prod.mk.injEq] at h
      obtain ⟨rfl, rfl⟩ := h
      simp [wrapFrom, mkRecord, prepare]
  | .tup es :: rest =>
      simp only [prepare, Option.map_eq_some'] at h
      obtain ⟨ps, hps, heq⟩ := h
      simp only [Prod.mk.injEq] at heq
      obtain ⟨rfl, rfl⟩ := heq
      obtain ⟨q, qs, rfl, -, -⟩ := unpackAll_cons hps
      simp [mkRecord, prepare]
  | .int k :: rest =>
      simp only [prepare, Option.some_inj, Prod.mk.injEq] at h
      obtain ⟨rfl, rfl⟩ := h
      rfl
  | .dict ps :: rest =>
      simp only [prepare, Option.some_inj, Prod.mk.injEq] at h
      obtain ⟨rfl, rfl⟩ := h
      rfl

end PrepareLemmas

section NormalizePush

/-- Normalizing a sequence of already-normalized records passes it
through unchanged, with no UUID draw. -/
theorem prepare_records (gen : ℕ → String) (ctr : ℕ) (l : List PyObj)
    (h : ∀ x ∈ l, isRecord x = true) :
    prepare gen ctr l = some (l, 0) := by
  match l with
  | [] => rfl
  | x :: rest =>
      obtain ⟨ps, rfl⟩ := isRecord_dict (h x (by simp))
      rfl

/-- The texts of the records built by the string branch are exactly the
input elements, in order, whatever their shapes. -/
theorem wrapFrom_texts (gen : ℕ → String) : ∀ (ctr : ℕ) (l : List PyObj),
    (wrapFrom gen ctr l).map (fun r => dictGet r "text") = l.map some := by
  intro ctr l
  induction l generalizing ctr with
  | nil => rfl
  | cons x rest ih =>
      simp only [wrapFrom, List.map_cons, ih]
      rfl

/-- C7: normalization is idempotent and order-preserving — on a
sequence of already-normalized records it returns exactly the same
sequence (ids, texts and order unchanged), and its value does not
depend on the UUID supply or on the draw counter (no side effects). -/
theorem C7_normalize_idempotent (gen : ℕ → String) (ctr : ℕ) (l : List PyObj)
    (h : ∀ x ∈ l, isRecord x = true) :
    prepare gen ctr l = some (l, 0) ∧
    (∀ (gen2 : ℕ → String) (ctr2 : ℕ), prepare gen ctr l = prepare gen2 ctr2 l) :=
  ⟨prepare_records gen ctr l h, fun gen2 ctr2 =>
    (prepare_records gen ctr l h).trans (prepare_records gen2 ctr2 l h).symm⟩

theorem C7_normalize_idempotent_witness :
    prepare genW 0 [mkRecord (.int 1) (.str "a"), mkRecord (.int 2) (.str "b")] =
      some ([mkRecord (.int 1) (.str "a"), mkRecord (.int 2) (.str "b")], 0) :=
  (C7_normalize_idempotent genW 0
    [mkRecord (.int 1) (.str "a"), mkRecord (.int 2) (.str "b")] (by decide)).1

/-- C4: when the input normalizes to `N > 0` records, `push` issues
exactly `ceil(N/100) = (N + 99) / 100` chunk upload calls, each of at
most 100 records, whose concatenation (in submission order) is exactly
the normalized sequence, the push reports success, and the task's local
mirror gains exactly those `N` records, appended in input order. -/
theorem C4_chunking (gen : ℕ → String) (st : TaskState)
    (contents prepared : List PyObj) (d : ℕ)
    (h : prepare gen st.ctr contents = some (prepared, d))
    (hN : 0 < prepared.length)
    (st2 : TaskState) (calls : List (List PyObj)) (ok : Bool)
    (hp : taskPush gen st contents = some (st2, calls, ok)) :
    ok = true ∧
    calls.length = (prepared.length + 99) / 100 ∧
    (∀ c ∈ calls, c.length ≤ 100) ∧
    calls.flatten = prepared ∧
    st2.mirror = st.mirror ++ prepared := by
  have hstable := prepare_out_stable h gen (st.ctr + d)
  have hne : prepared.isEmpty = false := by
    cases prepared
    · simp at hN
    · rfl
  have hpush : cluster_push gen (st.ctr + d) prepared =
      some (chunks100 prepared, true, 0) := by
    simp [cluster_push, hstable, hne]
  simp only [taskPush, h, hpush] at hp
  simp only [Option.some_inj, Prod.mk.injEq] at hp
  obtain ⟨hst2, hcalls, hok⟩ := hp
  subst hok
  refine ⟨rfl, ?_, ?_, ?_, ?_⟩
  · rw [← hcalls, chunks100_length]
  · intro c hc
    rw [← hcalls] at hc
    exact chunks100_size hc
  · rw [← hcalls, chunks100_flatten]
  · rw [← hst2]
    simp

theorem C4_chunking_witness :
    [demoRecords].length = (demoRecords.length + 99) / 100 ∧
    [demoRecords].flatten = demoRecords ∧
    (⟨2, demoRecords⟩ : TaskState).mirror = [] ++ demoRecords := by
  have h := C4_chunking genW ⟨0, []⟩ [.str "a", .str "b"] demoRecords 2 rfl
    (by decide) ⟨2, demoRecords⟩ [demoRecords] true rfl
  exact ⟨h.2.1, h.2.2.2.1, h.2.2.2.2⟩

/-- C8: an input that normalizes to the empty sequence causes zero
chunk upload calls and a falsy push return, leaves the local mirror
untouched, and the one-shot wrapper called with empty contents returns
an empty result with no remote operation invoked at all. -/
theorem C8_empty_noop {ε : Type} (gen : ℕ → String) (st : TaskState)
    (contents : List PyObj) (d : ℕ)
    (hempty : prepare gen st.ctr contents = some ([], d))
    (ops : TaskOps ε) :
    cluster_push gen st.ctr contents = some ([], false, d) ∧
    taskPush gen st contents = some (⟨st.ctr + d, st.mirror⟩, [], false) ∧
    clusterRun ([] : List PyObj) ops = ([], Except.ok []) := by
  refine ⟨?_, ?_, rfl⟩
  · simp [cluster_push, hempty]
  · have hin : cluster_push gen (st.ctr + d) ([] : List PyObj) =
        some ([], false, 0) := rfl
    simp [taskPush, hempty, hin]

theorem C8_empty_noop_witness :
    cluster_push genW 0 ([] : List PyObj) = some ([], false, 0) ∧
    clusterRun ([] : List PyObj) opsA = ([], Except.ok []) := by
  have h := C8_empty_noop (ε := ℕ) genW ⟨0, []⟩ [] 0 rfl opsA
  exact ⟨h.1, h.2.2⟩

end NormalizePush

section UuidUniqueness

/-- Splitting a run of consecutive UUID draws. -/
theorem uuidIds_append (gen : ℕ → String) : ∀ (m ctr n : ℕ),
    uuidIds gen ctr (m + n) = uuidIds gen ctr m ++ uuidIds gen (ctr + m) n := by
  intro m
  induction m with
  | zero =>
      intro ctr n
      simp [uuidIds, Nat.zero_add]
  | succ m ih =>
      intro ctr n
      have harith : m + 1 + n = (m + n) + 1 := by omega
      rw [harith]
      simp only [uuidIds, List.cons_append, ih (ctr + 1) n]
      have : ctr + 1 + m = ctr + (m + 1) := by omega
      rw [this]

/-- The ids the string branch assigns are exactly the consecutive UUID
draws starting at the current counter. -/
theorem wrapFrom_ids (gen : ℕ → String) : ∀ (l : List PyObj) (ctr : ℕ),
    (wrapFrom gen ctr l).map (fun r => dictGet r "_id") = uuidIds gen ctr l.length := by
  intro l
  induction l with
  | nil => intro ctr; rfl
  | cons x rest ih =>
      intro ctr
      simp only [wrapFrom, List.map_cons, ih]
      rfl

/-- One `push` of a list of bare strings: the mirror gains the wrapped
records, and the draw counter advances by the list's length. -/
theorem taskPush_strings (gen : ℕ → String) (st : TaskState) (l : List PyObj)
    (hstr : ∀ x ∈ l, x.isStr = true) :
    ∃ calls ok, taskPush gen st l =
      some (⟨st.ctr + l.length, st.mirror ++ wrapFrom gen st.ctr l⟩, calls, ok) := by
  match l with
  | [] =>
      refine ⟨[], false, ?_⟩
      simp [taskPush, prepare, cluster_push, wrapFrom]
  | x :: rest =>
      have hx : x.isStr = true := hstr x (by simp)
      cases x with
      | str s =>
          have h : prepare gen st.ctr (.str s :: rest) =
              some (wrapFrom gen st.ctr (.str s :: rest), rest.length + 1) := rfl
          have hstable := prepare_out_stable h gen (st.ctr + (rest.length + 1))
          have hne : (wrapFrom gen st.ctr (.str s :: rest)).isEmpty = false := rfl
          refine ⟨chunks100 (wrapFrom gen st.ctr (.str s :: rest)), true, ?_⟩
          simp [taskPush, h, cluster_push, hstable, hne]
      | int k => simp [PyObj.isStr] at hx
      | tup es => simp [PyObj.isStr] at hx
      | dict ps => simp [PyObj.isStr] at hx

/-- Iterated bare-string pushes: the mirror's ids are exactly the
consecutive UUID draws made so far. -/
theorem pushAll_strings (gen : ℕ → String) : ∀ (Ls : List (List PyObj)) (st : TaskState),
    (∀ L ∈ Ls, ∀ x ∈ L, x.isStr = true) →
    ∃ st2, pushAll gen st Ls = some st2 ∧
      st2.ctr = st.ctr + (Ls.map List.length).sum ∧
      st2.mirror.map (fun r => dictGet r "_id") =
        st.mirror.map (fun r => dictGet r "_id") ++
          uuidIds gen st.ctr (Ls.map List.length).sum := by
  intro Ls
  induction Ls with
  | nil =>
      intro st hstr
      exact ⟨st, rfl, by simp, by simp [uuidIds]⟩
  | cons L Ls ih =>
      intro st hstr
      obtain ⟨calls, ok, hpush⟩ :=
        taskPush_strings gen st L (hstr L (by simp))
      obtain ⟨st2, hrun, hctr, hids⟩ :=
        ih ⟨st.ctr + L.length, st.mirror ++ wrapFrom gen st.ctr L⟩
          (fun M hM => hstr M (by simp [hM]))
      refine ⟨st2, ?_, ?_, ?_⟩
      · simp only [pushAll, hpush]
        exact hrun
      · rw [hctr]
        simp only [List.map_cons, List.sum_cons]
        omega
      · rw [hids]
        simp only [List.map_append, List.map_cons, List.sum_cons,
          wrapFrom_ids, List.append_assoc]
        rw [uuidIds_append gen L.length st.ctr (Ls.map List.length).sum]

end UuidUniqueness

section IdAssignment

/-- C6 (amended): when bare strings are pushed through
`_ClusterTask.push`, each is wrapped into a record whose id is the next
freshly drawn UUID, and — provided the drawn UUIDs are pairwise
distinct, the freshness idealization of `uuid.uuid4()` — the ids in the
task's mirror are pairwise distinct.  The one-shot wrappers
`BosonNLP.cluster` / `comments`, by contrast, wrap bare strings with
their sequential enumeration indices `0, 1, ...` as integer ids, which
are likewise pairwise distinct but are not UUIDs. -/
theorem C6_id_assignment (gen : ℕ → String) (Ls : List (List PyObj))
    (hstr : ∀ L ∈ Ls, ∀ x ∈ L, x.isStr = true)
    (st2 : TaskState) (hrun : pushAll gen ⟨0, []⟩ Ls = some st2)
    (hfresh : (uuidIds gen 0 (Ls.map List.length).sum).Nodup)
    (contents : List PyObj) (hc : ∀ x ∈ contents, x.isStr = true) :
    (st2.mirror.map (fun r => dictGet r "_id") =
        uuidIds gen 0 (Ls.map List.length).sum ∧
      (st2.mirror.map (fun r => dictGet r "_id")).Nodup) ∧
    ((clusterWrapperNormalize contents).map (fun r => dictGet r "_id") =
        (List.range contents.length).map (fun k => some (.int (k : ℤ))) ∧
      ((clusterWrapperNormalize contents).map (fun r => dictGet r "_id")).Nodup) := by
  constructor
  · obtain ⟨st2x, hrunx, hctr, hids⟩ := pushAll_strings gen Ls ⟨0, []⟩ hstr
    rw [hrun] at hrunx
    obtain rfl : st2 = st2x := Option.some_inj.mp hrunx
    simp only [List.map_nil, List.nil_append] at hids
    exact ⟨hids, hids ▸ hfresh⟩
  · have hmain : (clusterWrapperNormalize contents).map (fun r => dictGet r "_id") =
        (List.range contents.length).map (fun k => some (.int (k : ℤ))) := by
      match contents with
      | [] => rfl
      | x :: rest =>
          have hx : x.isStr = true := hc x (by simp)
          simp only [clusterWrapperNormalize, hx, if_pos]
          rw [List.map_map]
          have : ((fun r => dictGet r "_id") ∘ fun p : ℕ × PyObj =>
              mkRecord (PyObj.int p.1) p.2) =
              (fun p : ℕ × PyObj => some (PyObj.int (p.1 : ℤ))) := by
            funext p
            rfl
          rw [this]
          have henum : (x :: rest).enum.map
                (fun p : ℕ × PyObj => some (PyObj.int (p.1 : ℤ))) =
              ((x :: rest).enum.map Prod.fst).map
                (fun k : ℕ => some (PyObj.int (k : ℤ))) := by
            rw [List.map_map]
            rfl
          rw [henum, List.enum_map_fst]
    refine ⟨hmain, ?_⟩
    rw [hmain]
    refine List.Nodup.map ?_ (List.nodup_range _)
    intro a b hab
    simp only [Option.some_inj, PyObj.int.injEq, Int.natCast_inj] at hab
    exact hab

theorem C6_id_assignment_witness :
    ((⟨2, demoRecords⟩ : TaskState).mirror.map (fun r => dictGet r "_id")).Nodup ∧
    ((clusterWrapperNormalize [.str "c"]).map (fun r => dictGet r "_id")).Nodup := by
  have h := C6_id_assignment genW [[.str "a", .str "b"]] (by decide)
    ⟨2, demoRecords⟩ rfl
    (by simp [uuidIds, genW]; decide)
    [.str "c"] (by decide)
  exact ⟨h.1.2, h.2.2⟩

/-- C6, as stated, is false for the one-shot wrappers: feeding the
bare strings `"a", "b"` to `BosonNLP.cluster`-style normalization
yields the INTEGER ids `0` and `1` — not strings, while every freshly
generated UUID (`str(uuid.uuid4())`) is a string — so these records are
not wrapped with freshly generated UUIDs. -/
theorem C6_wrapper_ids_counterexample :
    (clusterWrapperNormalize [.str "a", .str "b"]).map (fun r => dictGet r "_id") =
      [some (.int 0), some (.int 1)] ∧
    (clusterWrapperNormalize [.str "a", .str "b"]).map
        (fun r => (dictGet r "_id").map PyObj.isStr) = [some false, some false] :=
  ⟨rfl, rfl⟩

end IdAssignment

section Transport

/-- C9: `_api_request` raises exactly when the status code is in
[400, 600); the failure message prefers the `message` field of the JSON
error body and falls back to the protocol status phrase, and every
other response is returned unchanged. -/
theorem C9_request_failure (r : HttpResponse) :
    ((api_request r).isOk = true ↔ (r.status_code < 400 ∨ 600 ≤ r.status_code)) ∧
    (∀ m, jsonMessage r = some m → 400 ≤ r.status_code → r.status_code < 600 →
      api_request r = .error ⟨"HTTPError: " ++ toString r.status_code ++ " " ++
        pyStr m, r.status_code⟩) ∧
    (jsonMessage r = none → 400 ≤ r.status_code → r.status_code < 600 →
      api_request r = .error ⟨"HTTPError: " ++ toString r.status_code ++ " " ++
        r.reason, r.status_code⟩) ∧
    (¬(400 ≤ r.status_code ∧ r.status_code < 600) → api_request r = .ok r) := by
  by_cases hrange : 400 ≤ r.status_code ∧ r.status_code < 600
  · refine ⟨?_, ?_, ?_, fun hcon => absurd hrange hcon⟩
    · simp only [api_request, if_pos hrange]
      constructor
      · intro h
        simp [Except.isOk, Except.toBool] at h
      · intro h
        omega
    · intro m hm h1 h2
      simp [api_request, if_pos hrange, hm]
    · intro hm h1 h2
      simp [api_request, if_pos hrange, hm]
  · refine ⟨?_, ?_, ?_, fun _ => by simp [api_request, if_neg hrange]⟩
    · simp only [api_request, if_neg hrange]
      constructor
      · intro _
        omega
      · intro _
        rfl
    · intro m hm h1 h2
      exact absurd ⟨h1, h2⟩ hrange
    · intro hm h1 h2
      exact absurd ⟨h1, h2⟩ hrange

theorem C9_request_failure_witness :
    api_request ⟨404, "Not Found", some (.dict [("message", .str "no such task")])⟩ =
      .error ⟨"HTTPError: 404 no such task", 404⟩ :=
  (C9_request_failure ⟨404, "Not Found",
      some (.dict [("message", .str "no such task")])⟩).2.1
    (.str "no such task") rfl (by decide) (by decide)

/-- C5: on a response that passes the transport layer and carries a
`status` field, `_cluster_status` case-folds the reported status; the
folded string `"not found"` raises `TaskNotFoundError`, `"error"`
raises `TaskError`, and every other value is returned folded; a
transport error from `_api_request` propagates unchanged. -/
theorem C5_status_mapping (tid : String) (r : HttpResponse) (v : PyObj)
    (hok : ¬(400 ≤ r.status_code ∧ r.status_code < 600))
    (hv : r.body.bind (fun b => dictGet b "status") = some v) :
    (cluster_status tid r = .notFound ("cluster " ++ tid ++ " not found") ↔
        strLower (pyStr v) = "not found") ∧
    (cluster_status tid r = .taskErr ("cluster " ++ tid ++ " error") ↔
        strLower (pyStr v) = "error") ∧
    (strLower (pyStr v) ≠ "not found" → strLower (pyStr v) ≠ "error" →
        cluster_status tid r = .ok (strLower (pyStr v))) ∧
    (∀ (r2 : HttpResponse) (e : HttpErr), api_request r2 = .error e →
        cluster_status tid r2 = .transport e) := by
  have hreq : api_request r = .ok r := by
    simp [api_request, hok]
  have hprop : ∀ (r2 : HttpResponse) (e : HttpErr), api_request r2 = .error e →
      cluster_status tid r2 = .transport e := by
    intro r2 e he
    simp [cluster_status, he]
  by_cases h1 : strLower (pyStr v) = "not found"
  · refine ⟨?_, ?_, ?_, hprop⟩
    · simp [cluster_status, hreq, hv, h1]
    · simp [cluster_status, hreq, hv, h1]
    · intro hcon
      exact absurd h1 hcon
  · by_cases h2 : strLower (pyStr v) = "error"
    · refine ⟨?_, ?_, ?_, hprop⟩
      · simp [cluster_status, hreq, hv, h1, h2]
      · simp [cluster_status, hreq, hv, h1, h2]
      · intro _ hcon
        exact absurd h2 hcon
    · refine ⟨?_, ?_, fun _ _ => ?_, hprop⟩
      · simp [cluster_status, hreq, hv, h1, h2]
      · simp [cluster_status, hreq, hv, h1, h2]
      · simp [cluster_status, hreq, hv, h1, h2]

theorem C5_status_mapping_witness :
    cluster_status "t" ⟨200, "OK", some (.dict [("status", .str "Not Found")])⟩ =
      .notFound ("cluster " ++ "t" ++ " not found") :=
  (C5_status_mapping "t" ⟨200, "OK", some (.dict [("status", .str "Not Found")])⟩
    (.str "Not Found") (by decide) rfl).1.mpr rfl

end Transport

section WaitLoop

/-- A loop whose result is set never changes state again. -/
theorem waitStep_frozen {st : String} {tmo : Option ℚ} {s : WaitState} {b : Bool}
    (h : s.result = some b) : waitStep st tmo s = s := by
  simp [waitStep, h]

/-- While the loop is running, each iteration logs the current sleep
interval. -/
theorem waitStep_log_append {st : String} {tmo : Option ℚ} {s : WaitState}
    (h : s.result = none) :
    (waitStep st tmo s).log = s.log ++ [s.stime] := by
  simp only [waitStep, h]
  by_cases hdone : st = "done"
  · simp [hdone]
  · simp only [if_neg hdone]
    cases hto : timeoutHit tmo (s.elapsed + s.stime) <;> simp [hto]

/-- Intervals of at most 64 times a unit value: `2^m ≤ 64` for `m ≤ 6`. -/
theorem two_pow_le_64 {m : ℕ} (h : m ≤ 6) : (2 : ℚ) ^ m ≤ 64 := by
  calc (2 : ℚ) ^ m ≤ 2 ^ 6 := pow_le_pow_right₀ (by norm_num) h
  _ = 64 := by norm_num

theorem le_two_pow_64 {m : ℕ} (h : 6 ≤ m) : (64 : ℚ) ≤ 2 ^ m := by
  calc (64 : ℚ) = 2 ^ 6 := by norm_num
  _ ≤ 2 ^ m := pow_le_pow_right₀ (by norm_num) h

/-- The step the loop takes on its sleep interval — double after every
third iteration while strictly below 64 — maps the closed-form interval
formula at `k` to the one at `k + 1`. -/
theorem backoffFormula_succ (k : ℕ) :
    backoffFormula (k + 1) =
      if (k + 1) % 3 = 0 ∧ backoffFormula k < 64 then
        backoffFormula k + backoffFormula k
      else backoffFormula k := by
  by_cases h6 : k / 3 < 6
  · have hk : backoffFormula k = 2 ^ (k / 3) :=
      min_eq_left (two_pow_le_64 (by omega))
    have hlt : backoffFormula k < 64 := by
      rw [hk]
      calc (2 : ℚ) ^ (k / 3) ≤ 2 ^ 5 := pow_le_pow_right₀ (by norm_num) (by omega)
      _ < 64 := by norm_num
    by_cases h3 : (k + 1) % 3 = 0
    · have hdiv : (k + 1) / 3 = k / 3 + 1 := by omega
      have hk1 : backoffFormula (k + 1) = 2 ^ (k / 3 + 1) := by
        rw [backoffFormula, hdiv]
        exact min_eq_left (two_pow_le_64 (by omega))
      rw [if_pos ⟨h3, hlt⟩, hk, hk1, pow_succ]
      ring
    · have hdiv : (k + 1) / 3 = k / 3 := by omega
      rw [if_neg (fun hc => h3 hc.1)]
      rw [backoffFormula, hdiv, ← backoffFormula]
  · have hk : backoffFormula k = 64 := min_eq_right (le_two_pow_64 (by omega))
    have hk1 : backoffFormula (k + 1) = 64 := min_eq_right (le_two_pow_64 (by omega))
    rw [hk, hk1, if_neg (fun hc => absurd hc.2 (by norm_num))]

/-- Every value of the interval formula lies below the 64-unit cap. -/
theorem backoffFormula_le (k : ℕ) : backoffFormula k ≤ 64 :=
  min_le_right _ _

/-- Invariant of the loop started with a 1-unit initial interval (no
timeout, or a timeout of at least one unit): while running, the sleep
interval follows the closed-form backoff formula at the iteration
counter, and every logged interval is at most 64. -/
theorem waitRun_inv_one (status : ℕ → String) (tmo : Option ℚ)
    (h1 : (waitInit tmo).stime = 1) : ∀ n,
    ((waitRun status tmo n).result = none →
      (waitRun status tmo n).stime = backoffFormula (waitRun status tmo n).i) ∧
    (∀ x ∈ (waitRun status tmo n).log, x ≤ 64) := by
  intro n
  induction n with
  | zero =>
      constructor
      · intro _
        show (waitInit tmo).stime = backoffFormula (waitInit tmo).i
        rw [h1]
        show (1 : ℚ) = backoffFormula 0
        rw [backoffFormula]
        rw [min_eq_left (by norm_num)]
        norm_num
      · intro x hx
        simp [waitRun, waitInit] at hx
  | succ n ih =>
      cases hres : (waitRun status tmo n).result with
      | some b =>
          rw [waitRun, waitStep_frozen hres]
          refine ⟨fun h => ?_, ih.2⟩
          rw [hres] at h
          cases h
      | none =>
          have hstime := ih.1 hres
          have hcap : (waitRun status tmo n).stime ≤ 64 :=
            hstime ▸ backoffFormula_le _
          have hlog : ∀ x ∈ (waitRun status tmo n).log ++
              [(waitRun status tmo n).stime], x ≤ 64 := by
            intro x hx
            rcases List.mem_append.mp hx with hx | hx
            · exact ih.2 x hx
            · rw [List.mem_singleton.mp hx]
              exact hcap
          rw [waitRun]
          simp only [waitStep, hres]
          by_cases hdone : status n = "done"
          · simp only [if_pos hdone]
            refine ⟨fun h => ?_, hlog⟩
            simp at h
          · simp only [if_neg hdone]
            cases hto : timeoutHit tmo ((waitRun status tmo n).elapsed +
                (waitRun status tmo n).stime) with
            | true =>
                simp only [hto, if_pos]
                refine ⟨fun h => ?_, hlog⟩
                simp at h
            | false =>
                simp only [hto, Bool.false_eq_true, if_neg, if_false]
                refine ⟨fun _ => ?_, hlog⟩
                show (if ((waitRun status tmo n).i + 1) % 3 = 0 ∧
                    (waitRun status tmo n).stime < 64 then
                      (waitRun status tmo n).stime + (waitRun status tmo n).stime
                    else (waitRun status tmo n).stime) =
                  backoffFormula ((waitRun status tmo n).i + 1)
                rw [hstime, backoffFormula_succ]

end WaitLoop

section WaitLoopExact

/-- With no timeout and a status that never reports done, the loop
after `n` iterations has slept exactly the intervals
`1,1,1,2,2,2,4,4,4,...` capped at 64. -/
theorem waitRun_none_exact (status : ℕ → String) (hs : ∀ k, status k ≠ "done") :
    ∀ n, (waitRun status none n).result = none ∧
      (waitRun status none n).i = n ∧
      (waitRun status none n).stime = backoffFormula n ∧
      (waitRun status none n).log = (List.range n).map backoffFormula := by
  intro n
  induction n with
  | zero =>
      refine ⟨rfl, rfl, ?_, rfl⟩
      show (1 : ℚ) = backoffFormula 0
      rw [backoffFormula, min_eq_left (by norm_num)]
      norm_num
  | succ n ih =>
      obtain ⟨hres, hi, hstime, hlog⟩ := ih
      rw [waitRun]
      simp only [waitStep, hres, if_neg (hs n)]
      have hto : timeoutHit none ((waitRun status none n).elapsed +
          (waitRun status none n).stime) = false := rfl
      simp only [hto, Bool.false_eq_true, if_false]
      refine ⟨by trivial, by simp [hi], ?_, ?_⟩
      · show (if ((waitRun status none n).i + 1) % 3 = 0 ∧
            (waitRun status none n).stime < 64 then
              (waitRun status none n).stime + (waitRun status none n).stime
            else (waitRun status none n).stime) = backoffFormula (n + 1)
        rw [hstime, hi, backoffFormula_succ]
      · show (waitRun status none n).log ++ [(waitRun status none n).stime] =
          (List.range (n + 1)).map backoffFormula
        rw [hlog, hstime, List.range_succ, List.map_append, List.map_singleton]

/-- With a timeout of zero units, the sleep interval is pinned at zero
(`min(1, 0)`), and so is every logged interval. -/
theorem waitRun_zero_t (status : ℕ → String) : ∀ n,
    (waitRun status (some 0) n).stime = 0 ∧
    (∀ x ∈ (waitRun status (some 0) n).log, x = 0) := by
  intro n
  induction n with
  | zero =>
      refine ⟨?_, ?_⟩
      · show min (1 : ℚ) 0 = 0
        exact min_eq_right (by norm_num)
      · intro x hx
        simp [waitRun, waitInit] at hx
  | succ n ih =>
      obtain ⟨hstime, hlog⟩ := ih
      have hlog2 : ∀ x ∈ (waitRun status (some 0) n).log ++
          [(waitRun status (some 0) n).stime], x = 0 := by
        intro x hx
        rcases List.mem_append.mp hx with hx | hx
        · exact hlog x hx
        · rw [List.mem_singleton.mp hx]
          exact hstime
      cases hres : (waitRun status (some 0) n).result with
      | some b =>
          rw [waitRun, waitStep_frozen hres]
          exact ⟨hstime, hlog⟩
      | none =>
          rw [waitRun]
          simp only [waitStep, hres]
          by_cases hdone : status n = "done"
          · simp only [if_pos hdone]
            exact ⟨hstime, hlog2⟩
          · simp only [if_neg hdone]
            cases hto : timeoutHit (some 0) ((waitRun status (some 0) n).elapsed +
                (waitRun status (some 0) n).stime) with
            | true => simp [timeoutHit] at hto
            | false =>
                simp only [hto, Bool.false_eq_true, if_false]
                refine ⟨?_, hlog2⟩
                show (if ((waitRun status (some 0) n).i + 1) % 3 = 0 ∧
                    (waitRun status (some 0) n).stime < 64 then
                      (waitRun status (some 0) n).stime + (waitRun status (some 0) n).stime
                    else (waitRun status (some 0) n).stime) = 0
                rw [hstime]
                split <;> norm_num

/-- With a positive sub-unit timeout, the loop is still in its initial
state while running — it can run at most one iteration — and the only
interval it can log is the clamped `min(1, timeout)`. -/
theorem waitRun_small_t (status : ℕ → String) (t : ℚ) (h0 : 0 < t) (h1 : t < 1) :
    ∀ n, ((waitRun status (some t) n).result = none →
        waitRun status (some t) n = waitInit (some t)) ∧
      (∀ x ∈ (waitRun status (some t) n).log, x = min 1 t) := by
  intro n
  induction n with
  | zero =>
      refine ⟨fun _ => rfl, ?_⟩
      intro x hx
      simp [waitRun, waitInit] at hx
  | succ n ih =>
      cases hres : (waitRun status (some t) n).result with
      | some b =>
          rw [waitRun, waitStep_frozen hres]
          refine ⟨fun h => ?_, ih.2⟩
          rw [hres] at h
          cases h
      | none =>
          have hinit := ih.1 hres
          rw [waitRun, hinit]
          have hstime : (waitInit (some t)).stime = min 1 t := rfl
          have hmt : min (1 : ℚ) t = t := min_eq_right h1.le
          simp only [waitStep]
          show _ ∧ _
          by_cases hdone : status n = "done"
          · simp only [waitInit, if_pos hdone]
            refine ⟨fun h => ?_, ?_⟩
            · simp at h
            · intro x hx
              simp at hx
              simp [hx]
          · have hto : timeoutHit (some t) ((waitInit (some t)).elapsed +
                (waitInit (some t)).stime) = true := by
              show timeoutHit (some t) (0 + min 1 t) = true
              rw [hmt, zero_add]
              simp [timeoutHit, h0.ne']
            simp only [waitInit, if_neg hdone] at hto ⊢
            simp only [hto, if_pos]
            refine ⟨fun h => ?_, ?_⟩
            · simp at h
            · intro x hx
              simp at hx
              simp [hx]

end WaitLoopExact

section WaitLoopTimeout

/-- The first logged interval is the (possibly clamped) initial sleep
interval. -/
theorem waitRun_log_head (status : ℕ → String) (tmo : Option ℚ) :
    ∀ n, 0 < n →
      (waitRun status tmo n).log.head? = some ((waitInit tmo).stime) := by
  intro n
  induction n with
  | zero => omega
  | succ n ih =>
      intro _
      rcases Nat.eq_zero_or_pos n with rfl | hn
      · rw [waitRun, waitStep_log_append (by rfl)]
        rfl
      · have hhead := ih hn
        cases hres : (waitRun status tmo n).result with
        | some b => rw [waitRun, waitStep_frozen hres]; exact hhead
        | none =>
            rw [waitRun, waitStep_log_append hres, List.head?_append]
            rw [hhead]
            rfl

/-- A Python-falsy timeout (absent, or zero) can never trip the
timeout test, so `TimeoutError` is never raised. -/
theorem waitRun_no_timeout_raise (status : ℕ → String) (tmo : Option ℚ)
    (hfalsy : ∀ e, timeoutHit tmo e = false) :
    ∀ n, (waitRun status tmo n).result ≠ some false := by
  intro n
  induction n with
  | zero => simp [waitRun, waitInit]
  | succ n ih =>
      cases hres : (waitRun status tmo n).result with
      | some b =>
          rw [waitRun, waitStep_frozen hres, hres]
          cases b with
          | true => simp
          | false => exact absurd hres ih
      | none =>
          rw [waitRun]
          simp only [waitStep, hres]
          by_cases hdone : status n = "done"
          · simp [hdone]
          · simp [hdone, hfalsy]

/-- When the loop raises `TimeoutError`, the accumulated elapsed time
has reached the timeout. -/
theorem waitRun_timeout_elapsed (status : ℕ → String) (t : ℚ) :
    ∀ n, (waitRun status (some t) n).result = some false →
      t ≤ (waitRun status (some t) n).elapsed := by
  intro n
  induction n with
  | zero => intro h; simp [waitRun, waitInit] at h
  | succ n ih =>
      intro h
      cases hres : (waitRun status (some t) n).result with
      | some b =>
          rw [waitRun, waitStep_frozen hres] at h ⊢
          exact ih h
      | none =>
          rw [waitRun] at h ⊢
          simp only [waitStep, hres] at h ⊢
          by_cases hdone : status n = "done"
          · simp [hdone] at h
          · simp only [if_neg hdone] at h ⊢
            cases hto : timeoutHit (some t) ((waitRun status (some t) n).elapsed +
                (waitRun status (some t) n).stime) with
            | true =>
                simp only [hto, if_pos] at h ⊢
                have := hto
                simp only [timeoutHit, Bool.and_eq_true, decide_eq_true_eq] at this
                exact this.2
            | false =>
                simp only [hto, Bool.false_eq_true, if_false] at h
                simp at h

/-- The loop returns (result `some true`) only if some poll reported
done. -/
theorem waitRun_done_status (status : ℕ → String) (tmo : Option ℚ) :
    ∀ n, (waitRun status tmo n).result = some true → ∃ k, status k = "done" := by
  intro n
  induction n with
  | zero => intro h; simp [waitRun, waitInit] at h
  | succ n ih =>
      intro h
      cases hres : (waitRun status tmo n).result with
      | some b =>
          rw [waitRun, waitStep_frozen hres] at h
          exact ih h
      | none =>
          rw [waitRun] at h
          simp only [waitStep, hres] at h
          by_cases hdone : status n = "done"
          · exact ⟨n, hdone⟩
          · simp only [if_neg hdone] at h
            cases hto : timeoutHit tmo ((waitRun status tmo n).elapsed +
                (waitRun status tmo n).stime) with
            | true => simp [hto] at h
            | false => simp [hto] at h

/-- While the loop runs against a positive timeout `t`, the interval
stays at least `min(1, t)`, the elapsed time is at least `n` such
intervals, and (after the first iteration) stays below `t`. -/
theorem waitRun_progress (status : ℕ → String) (t : ℚ) (h0 : 0 < t) :
    ∀ n, (waitRun status (some t) n).result = none →
      (min 1 t ≤ (waitRun status (some t) n).stime ∧
       (n : ℚ) * min 1 t ≤ (waitRun status (some t) n).elapsed ∧
       (n = 0 ∨ (waitRun status (some t) n).elapsed < t)) := by
  have hmpos : (0 : ℚ) < min 1 t := lt_min (by norm_num) h0
  intro n
  induction n with
  | zero =>
      intro _
      refine ⟨le_refl _, ?_, Or.inl rfl⟩
      show (0 : ℚ) * min 1 t ≤ 0
      simp
  | succ n ih =>
      intro h
      have hres : (waitRun status (some t) n).result = none := by
        cases hres : (waitRun status (some t) n).result with
        | some b =>
            rw [waitRun, waitStep_frozen hres, hres] at h
            cases h
        | none => rfl
      obtain ⟨hstime, helapsed, -⟩ := ih hres
      rw [waitRun] at h ⊢
      simp only [waitStep, hres] at h ⊢
      by_cases hdone : status n = "done"
      · simp [hdone] at h
      · simp only [if_neg hdone] at h ⊢
        cases hto : timeoutHit (some t) ((waitRun status (some t) n).elapsed +
            (waitRun status (some t) n).stime) with
        | true =>
            simp only [hto, if_pos] at h
            simp at h
        | false =>
            simp only [hto, Bool.false_eq_true, if_false] at h ⊢
            have hlt : (waitRun status (some t) n).elapsed +
                (waitRun status (some t) n).stime < t := by
              have := hto
              simp only [timeoutHit, Bool.and_eq_true, decide_eq_true_eq,
                Bool.and_eq_false_iff, decide_eq_false_iff_not] at this
              rcases this with h' | h'
              · exact absurd (by exact_mod_cast h0.ne') (by simpa using h')
              · exact lt_of_not_le h'
            refine ⟨?_, ?_, Or.inr ?_⟩
            · show min 1 t ≤ (if ((waitRun status (some t) n).i + 1) % 3 = 0 ∧
                  (waitRun status (some t) n).stime < 64 then
                    (waitRun status (some t) n).stime + (waitRun status (some t) n).stime
                  else (waitRun status (some t) n).stime)
              split
              · linarith
              · exact hstime
            · show ((n + 1 : ℕ) : ℚ) * min 1 t ≤ (waitRun status (some t) n).elapsed +
                  (waitRun status (some t) n).stime
              have hcast : ((n + 1 : ℕ) : ℚ) * min 1 t =
                  (n : ℚ) * min 1 t + min 1 t := by
                push_cast
                ring
              rw [hcast]
              linarith
            · exact hlt

end WaitLoopTimeout

section WaitClaims

/-- Against a positive timeout and a status that never reports done,
the loop eventually raises `TimeoutError`. -/
theorem waitRun_eventually_timeout (status : ℕ → String) (t : ℚ) (h0 : 0 < t)
    (hs : ∀ k, status k ≠ "done") :
    ∃ n, (waitRun status (some t) n).result = some false := by
  refine ⟨max 1 (Nat.ceil t), ?_⟩
  cases hres : (waitRun status (some t) (max 1 (Nat.ceil t))).result with
  | some b =>
      cases b with
      | true =>
          obtain ⟨k, hk⟩ := waitRun_done_status status (some t) _ hres
          exact absurd hk (hs k)
      | false => rfl
  | none =>
      exfalso
      obtain ⟨-, helapsed, hlt⟩ := waitRun_progress status t h0 _ hres
      have hN1 : 1 ≤ max 1 (Nat.ceil t) := le_max_left _ _
      rcases hlt with hN0 | hlt
      · omega
      · have hbound : t ≤ ((max 1 (Nat.ceil t) : ℕ) : ℚ) * min 1 t := by
          rcases le_or_lt t 1 with h1 | h1
          · rw [min_eq_right h1]
            have hcast : (1 : ℚ) ≤ ((max 1 (Nat.ceil t) : ℕ) : ℚ) := by
              exact_mod_cast hN1
            nlinarith
          · rw [min_eq_left h1.le, mul_one]
            calc t ≤ ((Nat.ceil t : ℕ) : ℚ) := Nat.le_ceil t
            _ ≤ ((max 1 (Nat.ceil t) : ℕ) : ℚ) := by
                exact_mod_cast le_max_right 1 (Nat.ceil t)
        linarith

/-- C1: when `status()` keeps reporting a non-done status, the sleep
intervals follow `1,1,1,2,2,2,4,4,4,...` (doubling every third
iteration) in the no-timeout run, no logged interval ever exceeds 64
time-units in any run with a nonnegative (or absent) timeout, and when
a timeout is supplied the very first interval is `min(1, timeout)`. -/
theorem C1_backoff_intervals (status : ℕ → String) (hs : ∀ k, status k ≠ "done")
    (tmo : Option ℚ) (ht : ∀ t, tmo = some t → 0 ≤ t) :
    (tmo = none → ∀ n,
      (waitRun status none n).log = (List.range n).map backoffFormula) ∧
    (∀ n, ∀ x ∈ (waitRun status tmo n).log, x ≤ 64) ∧
    (∀ t, tmo = some t → ∀ n, 0 < n →
      (waitRun status (some t) n).log.head? = some (min 1 t)) := by
  refine ⟨fun _ n => (waitRun_none_exact status hs n).2.2.2, ?_, ?_⟩
  · intro n x hx
    cases tmo with
    | none => exact (waitRun_inv_one status none rfl n).2 x hx
    | some t =>
        have ht0 : 0 ≤ t := ht t rfl
        rcases eq_or_lt_of_le ht0 with hz | hpos
        · rw [← hz] at hx
          rw [(waitRun_zero_t status n).2 x hx]
          norm_num
        · rcases lt_or_le t 1 with hlt | hge
          · rw [(waitRun_small_t status t hpos hlt n).2 x hx]
            calc min (1 : ℚ) t ≤ 1 := min_le_left _ _
            _ ≤ 64 := by norm_num
          · have h1 : (waitInit (some t)).stime = 1 := by
              show min (1 : ℚ) t = 1
              exact min_eq_left hge
            exact (waitRun_inv_one status (some t) h1 n).2 x hx
  · intro t htt n hn
    subst htt
    exact waitRun_log_head status (some t) n hn

theorem C1_backoff_intervals_witness :
    (waitRun (fun _ => "running") (some 1) 1).log.head? = some (min 1 1) :=
  (C1_backoff_intervals (fun _ => "running")
    (fun k => (by decide : ¬"running" = "done")) (some 1)
    (fun t h => by
      injection h with h2
      rw [← h2]
      norm_num)).2.2 1 rfl 1 (by decide)

/-- C3, as stated, is false: a supplied timeout of `0` is Python-falsy
(`if timeout and ...`), so even though the status never reports done
and the accumulated elapsed time (zero) reaches the supplied timeout
value (zero) at every iteration, the loop has raised nothing after
three iterations — where the claim demands a raise on the first. -/
theorem C3_timeout_zero_counterexample :
    (waitRun (fun _ => "running") (some 0) 3).result = none ∧
    (0 : ℚ) ≤ (waitRun (fun _ => "running") (some 0) 3).elapsed := by
  constructor
  · simp [waitRun, waitStep, waitInit, timeoutHit]
  · simp [waitRun, waitStep, waitInit, timeoutHit]

/-- C3 (amended): the loop raises `TimeoutError` iff a NONZERO timeout
was supplied and the accumulated elapsed time reaches it before a done
poll — with no timeout, or with the Python-falsy timeout `0`, it polls
forever and never raises; when it does raise, the elapsed time has
reached the timeout; and for every positive timeout with a never-done
status a raise eventually happens. -/
theorem C3_timeout_condition (status : ℕ → String) :
    (∀ n, (waitRun status none n).result ≠ some false) ∧
    (∀ n, (waitRun status (some 0) n).result ≠ some false) ∧
    (∀ t : ℚ, ∀ n, (waitRun status (some t) n).result = some false →
      t ≤ (waitRun status (some t) n).elapsed) ∧
    (∀ t : ℚ, 0 < t → (∀ k, status k ≠ "done") →
      ∃ n, (waitRun status (some t) n).result = some false) := by
  refine ⟨?_, ?_, ?_, ?_⟩
  · exact waitRun_no_timeout_raise status none (fun e => rfl)
  · exact waitRun_no_timeout_raise status (some 0)
      (fun e => by simp [timeoutHit])
  · exact waitRun_timeout_elapsed status
  · exact waitRun_eventually_timeout status

theorem C3_timeout_condition_witness :
    (1 : ℚ) ≤ (waitRun (fun _ => "running") (some 1) 1).elapsed :=
  (C3_timeout_condition (fun _ => "running")).2.2.1 1 1
    (by simp [waitRun, waitStep, waitInit, timeoutHit])

end WaitClaims

section OneShotCleanup

/-- The try body never itself invokes `clear`. -/
theorem bodyRun_no_clear {ε : Type} (ops : TaskOps ε) :
    OpName.clear ∉ (bodyRun ops).1 := by
  cases ha : ops.analysisErr with
  | some e => simp [bodyRun, ha]
  | none =>
      cases hw : ops.waitErr with
      | some e => simp [bodyRun, ha, hw]
      | none =>
          cases hr : ops.resultOut with
          | error e => simp [bodyRun, ha, hw, hr]
          | ok res => simp [bodyRun, ha, hw, hr]

/-- C2 (amended): for nonempty contents, if facade construction raises
(including when its constructor-time initial push raised after partial
success) the local variable is never bound, so NO `clear` is attempted
and the construction error propagates; once construction succeeded,
`clear` runs exactly once on every exit path, and when `clear` itself
raises in the `finally` block its error REPLACES the body's outcome
(Python `finally` semantics) — it is only when `clear` succeeds that
the body's own outcome (success or primary failure) is propagated. -/
theorem C2_cleanup (ε : Type) (contents : List PyObj)
    (hne : contents.isEmpty = false) (ops : TaskOps ε) :
    (∀ e, ops.createErr = some e →
      (clusterRun contents ops).2 = .error e ∧
      OpName.clear ∉ (clusterRun contents ops).1) ∧
    (ops.createErr = none →
      ((clusterRun contents ops).1.count OpName.clear = 1 ∧
       (∀ ce, ops.clearErr = some ce → (clusterRun contents ops).2 = .error ce) ∧
       (ops.clearErr = none → (clusterRun contents ops).2 = (bodyRun ops).2))) := by
  constructor
  · intro e he
    constructor
    · simp [clusterRun, hne, he]
    · simp [clusterRun, hne, he]
  · intro hnone
    have hcalls : (clusterRun contents ops).1 =
        .create :: (bodyRun ops).1 ++ [.clear] := by
      simp only [clusterRun, hne, hnone, Bool.false_eq_true, if_false]
      cases hcl : ops.clearErr <;> simp [hcl]
    refine ⟨?_, ?_, ?_⟩
    · rw [hcalls]
      simp [List.count_cons, List.count_append,
        List.count_eq_zero.mpr (bodyRun_no_clear ops)]
    · intro ce hce
      simp [clusterRun, hne, hnone, hce]
    · intro hclnone
      simp [clusterRun, hne, hnone, hclnone]

theorem C2_cleanup_witness :
    (clusterRun [PyObj.str "a"] opsC).1.count OpName.clear = 1 ∧
    (clusterRun [PyObj.str "a"] opsC).2 = (bodyRun opsC).2 :=
  ⟨((C2_cleanup ℕ [PyObj.str "a"] rfl opsC).2 rfl).1,
   ((C2_cleanup ℕ [PyObj.str "a"] rfl opsC).2 rfl).2.2 rfl⟩

/-- C2, as stated, is false on both counts.  With `opsA` (facade
construction raises, e.g. its initial push failed after some chunks
went through) the one-shot wrapper runs NO `clear` at all — the
`cluster` variable was never bound, so the `finally` block skips the
cleanup — refuting "clear() is invoked exactly once ... including when
the construction-time initial push raised after partially succeeding".
With `opsB` (body fails with error 1, `clear` fails with error 2) the
call's outcome is error 2: the cleanup error replaced the primary
failure, refuting "an error raised by clear() does not replace or mask
the primary failure". -/
theorem C2_cleanup_counterexample :
    (clusterRun [PyObj.str "a"] opsA).1.count OpName.clear = 0 ∧
    (clusterRun [PyObj.str "a"] opsA).2 = .error 7 ∧
    opsB.analysisErr = some 1 ∧
    (clusterRun [PyObj.str "a"] opsB).2 = .error 2 :=
  ⟨rfl, rfl, rfl, rfl⟩

end OneShotCleanup

section FirstElementDispatch

/-- C10 (amended): the normalizer decides the shape of the whole input
from its first element only, with no shape test on later elements — a
string first element sends EVERY element through the text-wrapping
branch (never failing, whatever the later shapes), a tuple first
element subjects EVERY element to two-target unpacking (which fails on
elements that are not two-item iterables), and any other first element
passes the whole sequence through unchanged. -/
theorem C10_first_element_dispatch (gen : ℕ → String) (ctr : ℕ)
    (s : String) (es : List PyObj) (k : Int) (ps : List (String × PyObj))
    (rest : List PyObj) :
    (prepare gen ctr (.str s :: rest) =
        some (wrapFrom gen ctr (.str s :: rest), rest.length + 1) ∧
      (wrapFrom gen ctr (.str s :: rest)).map (fun r => dictGet r "text") =
        (PyObj.str s :: rest).map some) ∧
    prepare gen ctr (.tup es :: rest) =
      (unpackAll (.tup es :: rest)).map
        (fun qs => (qs.map fun q => mkRecord q.1 q.2, 0)) ∧
    prepare gen ctr (.int k :: rest) = some (.int k :: rest, 0) ∧
    prepare gen ctr (.dict ps :: rest) = some (.dict ps :: rest, 0) :=
  ⟨⟨rfl, wrapFrom_texts gen ctr (.str s :: rest)⟩, rfl, rfl, rfl⟩

theorem C10_first_element_dispatch_witness :
    prepare genW 0 [.str "x", .tup [.int 1, .str "a"]] =
      some ([mkRecord (.str "uuid-0") (.str "x"),
             mkRecord (.str "uuid-1") (.tup [.int 1, .str "a"])], 2) :=
  ((C10_first_element_dispatch genW 0 "x" [] 0 []
      [.tup [.int 1, .str "a"]]).1.1).trans rfl

/-- C10, the claim as stated, is false at this input: with a tuple
first element, the later element `"abc"` fails two-target unpacking
(Python raises `ValueError: too many values to unpack`), so this
mixed-shape input IS rejected — while the same shapes in the opposite
order are accepted, the string branch wrapping the tuple verbatim. -/
theorem C10_mixed_rejected_counterexample :
    prepare genW 0 [.tup [.int 1, .str "a"], .str "abc"] = none ∧
    (prepare genW 0 [.str "abc", .tup [.int 1, .str "a"]]).isSome = true :=
  ⟨rfl, rfl⟩

end FirstElementDispatch
